import Mathlib

/-!
# Lume — verification of the specification against the source

A shallow embedding of the Lume repository's TypeScript logic:

* the suggestion/classifier helper `generateSuggestions`
  (`lume-agent/components/ChatInterface.tsx`);
* the service-name tables (`AuthStatusResponse.services_connected` in the
  API client, `SERVICE_INFO` in `lume_frontend`'s `PermissionModal`);
* the API client (`api.ts`): `makeRequest` with its 401-refresh path,
  `refreshToken` promise memoization, `logout`, `TokenManager`,
  `isTokenExpired`, and `pollTaskStatus`;
* the chat message-list operations of both `ChatInterface` components;
* the OAuth-callback handling in `lume_frontend/src/app/page.tsx`.

JavaScript strings are modelled as lists of UTF-16 code units
(`JsStr := List Nat`); fallible JavaScript code (exceptions) is modelled
with `Option`/`Except`; `fetch` outcomes and task-status responses are
passed in explicitly so that the request-issuing behaviour is a pure
function of them.
-/

namespace Lume

/-- A JavaScript string, as its sequence of UTF-16 code units. -/
abbrev JsStr := List Nat

/-- Embeds a Lean string literal as a `JsStr` (all literals in the sources
are ASCII, so code points and UTF-16 code units coincide). -/
def jstr (s : String) : JsStr := s.toList.map Char.toNat

/-- The function `String.prototype.toLowerCase` on one code unit, for the ASCII range
(all characters the sources ever compare are ASCII letters). -/
def lowerCode (c : Nat) : Nat := if 65 ≤ c ∧ c ≤ 90 then c + 32 else c

/-- The function `String.prototype.toLowerCase` (ASCII range). -/
def lowerStr (s : JsStr) : JsStr := s.map lowerCode

/-- JavaScript truthiness of a `string | null | undefined` value:
`null`/`undefined` and the empty string are falsy. -/
def jsTruthy (o : Option JsStr) : Bool :=
  match o with
  | none => false
  | some s => !s.isEmpty

/-
## `generateSuggestions`
(`lume-agent/components/ChatInterface.tsx`, lines 363–373.)
-/

/-- Suggestion generator from `ChatInterface.tsx`:
```
function generateSuggestions(service?: string, action?: string): string[] {
  if (!service) return ['Tell me more', 'Undo', 'Help'];
  const s = service.toLowerCase();
  const a = (action || '').toLowerCase();
  if (s === 'gmail') return ['Show inbox', 'Draft a reply', 'Search email from Alex'];
  if (s === 'calendar') return ['View my week', 'Create event', 'Reschedule meeting'];
  if (s === 'tasks') return ['List tasks', 'Add a task', 'Mark task done'];
  if (s === 'keep') return ['New note', 'Search notes', 'Make a checklist'];
  if (s === 'maps') return ['Nearby cafes', 'Traffic to work', 'Best route home'];
  return ['Okay', 'Another example', 'Help'];
}
```
`!service` is true both for an absent argument and for the empty string
(JavaScript falsiness), which the embedding reproduces.  The lowered
action `a` is computed by the source but never used. -/
def generateSuggestions (service action : Option JsStr) : List JsStr :=
  match service with
  | none => [jstr "Tell me more", jstr "Undo", jstr "Help"]
  | some sv =>
    if sv = jstr "" then [jstr "Tell me more", jstr "Undo", jstr "Help"]
    else
      let s := lowerStr sv
      let _a := lowerStr (action.getD (jstr ""))
      if s = jstr "gmail" then [jstr "Show inbox", jstr "Draft a reply", jstr "Search email from Alex"]
      else if s = jstr "calendar" then [jstr "View my week", jstr "Create event", jstr "Reschedule meeting"]
      else if s = jstr "tasks" then [jstr "List tasks", jstr "Add a task", jstr "Mark task done"]
      else if s = jstr "keep" then [jstr "New note", jstr "Search notes", jstr "Make a checklist"]
      else if s = jstr "maps" then [jstr "Nearby cafes", jstr "Traffic to work", jstr "Best route home"]
      else [jstr "Okay", jstr "Another example", jstr "Help"]

/-- The list returned when the `service` argument is absent (or empty). -/
def absentSuggestions : List JsStr := [jstr "Tell me more", jstr "Undo", jstr "Help"]

/-- The fallback list returned when no service category matches. -/
def fallbackSuggestions : List JsStr := [jstr "Okay", jstr "Another example", jstr "Help"]

/-- The per-service suggestion lists, in the order the source checks them. -/
def suggestionTable : List (JsStr × List JsStr) :=
  [ (jstr "gmail", [jstr "Show inbox", jstr "Draft a reply", jstr "Search email from Alex"]),
    (jstr "calendar", [jstr "View my week", jstr "Create event", jstr "Reschedule meeting"]),
    (jstr "tasks", [jstr "List tasks", jstr "Add a task", jstr "Mark task done"]),
    (jstr "keep", [jstr "New note", jstr "Search notes", jstr "Make a checklist"]),
    (jstr "maps", [jstr "Nearby cafes", jstr "Traffic to work", jstr "Best route home"]) ]

/-- The spec's description of the matcher, as a first-match scan over
`suggestionTable` ("any match wins" over the fixed per-service lists),
amended with the empty-string case that JavaScript falsiness forces. -/
def generateSuggestionsFirstMatch (service : Option JsStr) : List JsStr :=
  match service with
  | none => absentSuggestions
  | some sv =>
    if sv = jstr "" then absentSuggestions
    else
      match suggestionTable.find? (fun p => decide (lowerStr sv = p.1)) with
      | some p => p.2
      | none => fallbackSuggestions

/-- The four service names the spec claims the system is limited to. -/
def claimedServiceNames : List JsStr :=
  [jstr "gmail", jstr "calendar", jstr "tasks", jstr "keep"]

/-- The keys of `AuthStatusResponse.services_connected` in the API client
(`api.ts`): `gmail`, `calendar`, `tasks`, `keep`, `maps`. -/
def authStatusServiceNames : List JsStr :=
  [jstr "gmail", jstr "calendar", jstr "tasks", jstr "keep", jstr "maps"]

/-- The keys of `SERVICE_INFO` in `lume_frontend`'s `PermissionModal`:
`email`, `calendar`, `tasks`, `keep` (note `email`, not `gmail`). -/
def serviceInfoKeys : List JsStr :=
  [jstr "email", jstr "calendar", jstr "tasks", jstr "keep"]

theorem lowerCode_idem (c : Nat) : lowerCode (lowerCode c) = lowerCode c := by
  unfold lowerCode; split_ifs <;> omega

theorem lowerStr_idem (s : JsStr) : lowerStr (lowerStr s) = lowerStr s := by
  unfold lowerStr
  induction s with
  | nil => rfl
  | cons a l ih => simp only [List.map_cons, lowerCode_idem, List.map_map] at *
                   simpa using ih

theorem lowerStr_eq_nil (s : JsStr) : lowerStr s = jstr "" ↔ s = jstr "" := by
  simp [lowerStr, jstr, List.map_eq_nil_iff]

/-- C1 (counterexample). The code handles the service name `maps` beyond the
spec's four-element set: `maps` is a key of the connected-services status
record, and the classifier/suggestion logic gives it its own non-fallback
suggestion list.  Moreover the permission modal's service table is keyed by
`email`, which is also outside the claimed set `{gmail, calendar, tasks,
keep}`. -/
theorem serviceSet_not_four :
    jstr "maps" ∈ authStatusServiceNames ∧
    jstr "maps" ∉ claimedServiceNames ∧
    generateSuggestions (some (jstr "maps")) none ≠ fallbackSuggestions ∧
    jstr "email" ∈ serviceInfoKeys ∧
    jstr "email" ∉ claimedServiceNames := by
  refine ⟨by decide, by decide, ?_, by decide, by decide⟩
  decide

/-- C1 (amended). The service names appearing in the classifier/suggestion
logic and in the connected-services status are exactly
`{gmail, calendar, tasks, keep, maps}`; the permission modal's service table
is keyed by exactly `{email, calendar, tasks, keep}`. -/
theorem serviceSet_characterization :
    suggestionTable.map Prod.fst = authStatusServiceNames ∧
    authStatusServiceNames = claimedServiceNames ++ [jstr "maps"] ∧
    serviceInfoKeys = [jstr "email", jstr "calendar", jstr "tasks", jstr "keep"] := by
  refine ⟨?_, by decide, by decide⟩
  decide

/-- C2. The keyword matcher is case-insensitive and deterministic:
lowercasing the `service` and `action` arguments does not change the result
(the source lowercases them itself, and lowering is idempotent), and two
calls with equal arguments return equal suggestion lists (the embedding is a
pure function). -/
theorem generateSuggestions_case_insensitive (service action : Option JsStr) :
    generateSuggestions service action
      = generateSuggestions (service.map lowerStr) (action.map lowerStr) ∧
    ∀ s2 a2 : Option JsStr, s2 = service → a2 = action →
      generateSuggestions s2 a2 = generateSuggestions service action := by
  constructor
  · cases service with
    | none => rfl
    | some sv =>
      cases action with
      | none =>
        by_cases h : sv = jstr ""
        · simp [generateSuggestions, h, lowerStr_eq_nil]
        · simp [generateSuggestions, h, (lowerStr_eq_nil sv).not.mpr h, lowerStr_idem]
      | some av =>
        by_cases h : sv = jstr ""
        · simp [generateSuggestions, h, lowerStr_eq_nil]
        · simp [generateSuggestions, h, (lowerStr_eq_nil sv).not.mpr h, lowerStr_idem]
  · intro s2 a2 hs ha
    rw [hs, ha]

/-- C2 (witness): the case-insensitivity equation evaluated at the concrete
pair `("GMail", "Send")`. -/
theorem generateSuggestions_case_insensitive_witness :
    generateSuggestions (some (jstr "GMail")) (some (jstr "Send"))
      = generateSuggestions ((some (jstr "GMail")).map lowerStr)
          ((some (jstr "Send")).map lowerStr) ∧
    generateSuggestions (some (jstr "GMail")) (some (jstr "Send"))
      = generateSuggestions (some (jstr "GMail")) (some (jstr "Send")) :=
  ⟨(generateSuggestions_case_insensitive (some (jstr "GMail")) (some (jstr "Send"))).1,
   (generateSuggestions_case_insensitive (some (jstr "GMail")) (some (jstr "Send"))).2
     (some (jstr "GMail")) (some (jstr "Send")) rfl rfl⟩

/-- C3 (counterexample). The claim predicts the fallback list
`['Okay', 'Another example', 'Help']` for every service string matching no
category, but for the empty string the source's `if (!service)` check fires
(the empty string is falsy in JavaScript) and the absent-argument list
`['Tell me more', 'Undo', 'Help']` is returned instead. -/
theorem generateSuggestions_empty_string :
    generateSuggestions (some (jstr "")) none = absentSuggestions ∧
    generateSuggestions (some (jstr "")) none ≠ fallbackSuggestions := by
  constructor
  · decide
  · decide

/-- C3 (amended). `generateSuggestions` agrees with the first-match scan
over the fixed per-service table (categories checked in the order gmail,
calendar, tasks, keep, maps; fixed fallback list when no category matches;
absent-argument list when the service is absent *or the empty string*). -/
theorem generateSuggestions_eq_first_match (service action : Option JsStr) :
    generateSuggestions service action = generateSuggestionsFirstMatch service := by
  cases service with
  | none => rfl
  | some sv =>
    by_cases h0 : sv = jstr ""
    · simp [generateSuggestions, generateSuggestionsFirstMatch, h0, absentSuggestions]
    · simp only [generateSuggestions, generateSuggestionsFirstMatch, if_neg h0,
        suggestionTable, List.find?]
      by_cases h1 : lowerStr sv = jstr "gmail"
      · rw [h1]; decide
      · by_cases h2 : lowerStr sv = jstr "calendar"
        · rw [h2]; decide
        · by_cases h3 : lowerStr sv = jstr "tasks"
          · rw [h3]; decide
          · by_cases h4 : lowerStr sv = jstr "keep"
            · rw [h4]; decide
            · by_cases h5 : lowerStr sv = jstr "maps"
              · rw [h5]; decide
              · simp [h1, h2, h3, h4, h5, fallbackSuggestions]

/-
## The API client (`api.ts`): `makeRequest` and its 401 retry
-/

/-- Outcome of one underlying `fetch` call: a response with an HTTP status,
an abort (the timeout controller fired), or a network failure. -/
inductive FetchResult where
  | response (status : Nat)
  | abortError
  | networkFailure
deriving DecidableEq

/-- The errors `makeRequest` can throw (`createHttpError` messages and the
rethrown network error). -/
inductive ReqError where
  | timeout
  | refreshFailed
  | httpError (status : Nat)
  | network
deriving DecidableEq

/-- The flag `Response.ok`: status in the range 200–299. -/
def statusOk (s : Nat) : Bool := 200 ≤ s ∧ s < 300

/-- The method `LumeApiClient.makeRequest` invoked with `config._retry = true` (the
inner, already-retried call): a 401 is no longer special, any non-ok status
throws `createHttpError`.  Returns the request outcome and the number of
`fetch` calls issued (always 1). -/
def makeRequestRetried (f : FetchResult) : Except ReqError Nat × Nat :=
  match f with
  | .response st => if statusOk st then (.ok st, 1) else (.error (.httpError st), 1)
  | .abortError => (.error .timeout, 1)
  | .networkFailure => (.error .network, 1)

/-- The method `LumeApiClient.makeRequest` on a fresh config (`_retry` unset).
`refreshOk` is whether the `refreshToken()` call inside the 401 handler
succeeds; `f1` is the outcome of the first `fetch`, `f2` of the retried one
(consumed only if a retry happens).  Returns the outcome and the total
number of `fetch` calls issued. -/
def makeRequest (refreshOk : Bool) (f1 f2 : FetchResult) : Except ReqError Nat × Nat :=
  match f1 with
  | .response st =>
    if st = 401 then
      if refreshOk then
        let r := makeRequestRetried f2
        (r.1, r.2 + 1)
      else (.error .refreshFailed, 1)
    else if statusOk st then (.ok st, 1)
    else (.error (.httpError st), 1)
  | .abortError => (.error .timeout, 1)
  | .networkFailure => (.error .network, 1)

/-- C4 (counterexample). A single `makeRequest` call is *not* limited to one
`fetch`: when the first response is a 401 and the token refresh succeeds,
the request is re-issued, for two `fetch` calls in total. -/
theorem makeRequest_retries_on_401 :
    makeRequest true (.response 401) (.response 200) = (Except.ok 200, 2) ∧
    (makeRequest true (.response 401) (.response 200)).2 ≠ 1 := by
  constructor
  · rfl
  · decide

/-- C4 (amended). A single `makeRequest` call issues the underlying `fetch`
at most twice, and issues it twice exactly when the first response is a 401
and the token refresh succeeds (the `_retry` flag forbids further retries);
in every other case — including every other failure — exactly one `fetch`
is issued and the error is surfaced without re-issuing the request. -/
theorem makeRequest_fetch_count (refreshOk : Bool) (f1 f2 : FetchResult) :
    (makeRequest refreshOk f1 f2).2 ≤ 2 ∧
    ((makeRequest refreshOk f1 f2).2 = 2 ↔
      f1 = FetchResult.response 401 ∧ refreshOk = true) := by
  have hr : (makeRequestRetried f2).2 = 1 := by
    cases f2 with
    | response st => simp only [makeRequestRetried]; split <;> rfl
    | abortError => rfl
    | networkFailure => rfl
  cases f1 with
  | response st =>
    by_cases h : st = 401
    · subst h
      cases refreshOk <;> simp [makeRequest, hr]
    · simp only [makeRequest, if_neg h]
      constructor
      · split <;> simp
      · constructor
        · intro hc
          exfalso
          revert hc
          split <;> simp
        · rintro ⟨h1, -⟩
          exact absurd (by injection h1) h
  | abortError => simp [makeRequest]
  | networkFailure => simp [makeRequest]

/-
## `LumeApiClient.refreshToken`: promise memoization
-/

/-- The client fields involved in refresh memoization
(`isRefreshing : boolean`, `refreshPromise : Promise<string> | null`);
promises are identified by numeric ids. -/
structure RefreshState where
  isRefreshing : Bool
  refreshPromise : Option Nat
deriving DecidableEq

/-- What one call to `refreshToken()` does, observed at the points where
other JavaScript code can run. -/
inductive RefreshCall where
  /-- Field `isRefreshing` was already true: the stored promise is returned
  (`return this.refreshPromise!`) and no request is issued. -/
  | joined (pid : Option Nat)
  /-- A refresh request was issued; the returned promise is pending. -/
  | startedInFlight (pid : Nat)
  /-- No stored refresh token: the async body threw before its first
  `await`, so the returned promise is already rejected. -/
  | rejectedSync (pid : Nat)
deriving DecidableEq

/-- One call to `refreshToken()`.  `hasStoredRefreshToken` is whether
`TokenManager.getRefreshToken()` returns a token, `newPid` identifies the
promise a fresh call would create.  JavaScript evaluation order matters in
the no-token case: the async IIFE runs synchronously up to its first
`await`; `throw new Error('No refresh token available')` is reached before
any `await`, so the `finally` block (which sets `isRefreshing = false` and
`refreshPromise = null`) runs *before* the resulting rejected promise is
assigned to `this.refreshPromise` — leaving the settled promise stored. -/
def refreshTokenCall (st : RefreshState) (hasStoredRefreshToken : Bool) (newPid : Nat) :
    RefreshState × RefreshCall :=
  if st.isRefreshing then (st, .joined st.refreshPromise)
  else if hasStoredRefreshToken then
    ({ isRefreshing := true, refreshPromise := some newPid }, .startedInFlight newPid)
  else
    ({ isRefreshing := false, refreshPromise := some newPid }, .rejectedSync newPid)

/-- The `finally` block of an in-flight refresh, run when the network
request settles: `isRefreshing = false`, `refreshPromise = null`. -/
def refreshSettle (_ : RefreshState) : RefreshState :=
  { isRefreshing := false, refreshPromise := none }

/-- C7 (counterexample). When no refresh token is stored, the async body
rejects synchronously and its `finally` runs before the assignment to
`refreshPromise`; after this refresh has settled, `refreshPromise` is *not*
null — it permanently holds the settled rejected promise. -/
theorem refreshToken_stale_promise :
    (refreshTokenCall ⟨false, none⟩ false 1).2 = RefreshCall.rejectedSync 1 ∧
    (refreshTokenCall ⟨false, none⟩ false 1).1.isRefreshing = false ∧
    (refreshTokenCall ⟨false, none⟩ false 1).1.refreshPromise ≠ none := by
  refine ⟨rfl, rfl, ?_⟩
  decide

/-- C7 (amended). Promise memoization holds for refreshes that issue a
request: while `isRefreshing` is true a further `refreshToken()` call
returns the stored promise unchanged and issues no request, a freshly
started refresh stores its promise with `isRefreshing = true`, and when it
settles `isRefreshing` is false and `refreshPromise` is null again.  The
one exception is the synchronous-rejection path (no stored refresh token),
after which `isRefreshing` is false but `refreshPromise` retains the
settled promise. -/
theorem refreshToken_memoization (st : RefreshState) (hasTok : Bool) (newPid : Nat) :
    (st.isRefreshing = true →
      refreshTokenCall st hasTok newPid = (st, RefreshCall.joined st.refreshPromise)) ∧
    (st.isRefreshing = false → hasTok = true →
      (refreshTokenCall st hasTok newPid).1
          = { isRefreshing := true, refreshPromise := some newPid } ∧
      refreshSettle (refreshTokenCall st hasTok newPid).1
          = { isRefreshing := false, refreshPromise := none }) ∧
    (st.isRefreshing = false → hasTok = false →
      (refreshTokenCall st hasTok newPid).1
          = { isRefreshing := false, refreshPromise := some newPid }) := by
  refine ⟨fun h => ?_, fun h ht => ⟨?_, rfl⟩, fun h ht => ?_⟩
  · simp [refreshTokenCall, h]
  · simp [refreshTokenCall, h, ht]
  · simp [refreshTokenCall, h, ht]

/-- C7 (witness): the amended theorem applied to a concrete in-flight state
and a concrete fresh start. -/
theorem refreshToken_memoization_witness :
    refreshTokenCall ⟨true, some 7⟩ true 9
        = (⟨true, some 7⟩, RefreshCall.joined (some 7)) ∧
    (refreshTokenCall ⟨false, none⟩ true 2).1
        = { isRefreshing := true, refreshPromise := some 2 } :=
  ⟨(refreshToken_memoization ⟨true, some 7⟩ true 9).1 rfl,
   ((refreshToken_memoization ⟨false, none⟩ true 2).2.1 rfl rfl).1⟩

/-
## `TokenManager` and `LumeApiClient.logout`
-/

/-- The browser-side token storage `TokenManager` reads and writes:
the two `localStorage` keys and the cookie copy of the auth token. -/
structure TokenStore where
  localToken : Option JsStr
  localRefreshToken : Option JsStr
  cookieToken : Option JsStr
deriving DecidableEq

/-- Accessor `TokenManager.getToken`: the HTTP cookie is consulted first, then
`localStorage`. -/
def getToken (st : TokenStore) : Option JsStr :=
  match st.cookieToken with
  | some t => some t
  | none => st.localToken

/-- Accessor `TokenManager.getRefreshToken`: `localStorage` only. -/
def getRefreshToken (st : TokenStore) : Option JsStr :=
  st.localRefreshToken

/-- The method `TokenManager.clearTokens`: removes both `localStorage` keys and
expires the cookie. -/
def clearTokens (_ : TokenStore) : TokenStore :=
  { localToken := none, localRefreshToken := none, cookieToken := none }

/-- The `ApiResponse` object `logout` resolves with. -/
structure ApiResult where
  status : Nat
  error : Option JsStr
  message : Option JsStr
deriving DecidableEq

/-- The method `LumeApiClient.logout`.  The backend `POST /auth/logout` outcome is
passed in as `backendLogout`; the inner `try { ... } catch {}` swallows any
error from it, after which `TokenManager.clearTokens()` runs and a plain
result object is returned.  The function is total — returning a value for
every outcome models that `logout` never rejects. -/
def logout (st : TokenStore) (backendLogout : Except JsStr Unit) : TokenStore × ApiResult :=
  match backendLogout with
  | _ =>
    (clearTokens st,
     { status := 200, error := none, message := some (jstr "Logged out successfully") })

/-- C8. `logout` always clears local credentials and never rejects: for
every prior token store and every backend-logout outcome (including a
thrown error), both stored tokens read back as `null` afterwards and the
call resolves with a result object (status 200, no error). -/
theorem logout_clears_tokens (st : TokenStore) (backendLogout : Except JsStr Unit) :
    getToken (logout st backendLogout).1 = none ∧
    getRefreshToken (logout st backendLogout).1 = none ∧
    (logout st backendLogout).2
      = { status := 200, error := none, message := some (jstr "Logged out successfully") } := by
  exact ⟨rfl, rfl, rfl⟩

/-
## `pollTaskStatus`
-/

/-- A task's `status` field. -/
inductive TaskState where
  | pending
  | running
  | completed
  | failed
deriving DecidableEq

/-- The part of `TaskStatusResponse` that `pollTaskStatus` inspects. -/
structure TaskStatus where
  task_id : JsStr
  status : TaskState
deriving DecidableEq

/-- One `api.getTaskStatus` result: either `response.error` is set, or
`response.data` carries a status. -/
inductive PollResponse where
  | failure (e : JsStr)
  | success (ts : TaskStatus)
deriving DecidableEq

/-- The timeout error message thrown after `maxAttempts` attempts. -/
def pollTimeoutMsg : JsStr := jstr "Task polling timeout - maximum attempts reached"

/-- The `for` loop of `pollTaskStatus`: `resp` gives the `getTaskStatus`
result of each attempt index, `attempt` the current index, `fuel` the
remaining attempts.  Returns the outcome (result or thrown error) and the
number of status requests issued. -/
def pollTaskStatusLoop (resp : Nat → PollResponse) (attempt fuel : Nat) :
    Except JsStr TaskStatus × Nat :=
  match fuel with
  | 0 => (.error pollTimeoutMsg, 0)
  | f + 1 =>
    match resp attempt with
    | .failure e => (.error e, 1)
    | .success ts =>
      if ts.status = .completed ∨ ts.status = .failed then (.ok ts, 1)
      else
        let r := pollTaskStatusLoop resp (attempt + 1) f
        (r.1, r.2 + 1)

/-- The function `pollTaskStatus` with its defaults (`maxAttempts = 30` unless
overridden); polling starts at attempt 0. -/
def pollTaskStatus (resp : Nat → PollResponse) (maxAttempts : Nat) :
    Except JsStr TaskStatus × Nat :=
  pollTaskStatusLoop resp 0 maxAttempts

/-- The default `maxAttempts` of `pollTaskStatus`. -/
def defaultMaxAttempts : Nat := 30

theorem pollTaskStatusLoop_count_le (resp : Nat → PollResponse) (attempt fuel : Nat) :
    (pollTaskStatusLoop resp attempt fuel).2 ≤ fuel := by
  induction fuel generalizing attempt with
  | zero => simp [pollTaskStatusLoop]
  | succ f ih =>
    cases hr : resp attempt with
    | failure e => simp [pollTaskStatusLoop, hr]
    | success ts =>
      by_cases hterm : ts.status = TaskState.completed ∨ ts.status = TaskState.failed
      · simp [pollTaskStatusLoop, hr, hterm]
      · have hle := ih (attempt + 1)
        simp only [pollTaskStatusLoop, hr]
        rw [if_neg hterm]
        simpa using hle

theorem pollTaskStatusLoop_ok_terminal (resp : Nat → PollResponse) (attempt fuel : Nat)
    (ts : TaskStatus) (h : (pollTaskStatusLoop resp attempt fuel).1 = Except.ok ts) :
    ts.status = TaskState.completed ∨ ts.status = TaskState.failed := by
  induction fuel generalizing attempt with
  | zero => simp [pollTaskStatusLoop] at h
  | succ f ih =>
    cases hr : resp attempt with
    | failure e => simp [pollTaskStatusLoop, hr] at h
    | success ts2 =>
      simp only [pollTaskStatusLoop, hr] at h
      by_cases hterm : ts2.status = TaskState.completed ∨ ts2.status = TaskState.failed
      · rw [if_pos hterm] at h
        obtain rfl : ts2 = ts := by simpa using h
        exact hterm
      · rw [if_neg hterm] at h
        exact ih (attempt + 1) h

theorem pollTaskStatusLoop_all_nonterminal (resp : Nat → PollResponse) (attempt fuel : Nat)
    (h : ∀ i, i < fuel → ∃ ts, resp (attempt + i) = PollResponse.success ts ∧
        ¬(ts.status = TaskState.completed ∨ ts.status = TaskState.failed)) :
    (pollTaskStatusLoop resp attempt fuel).1 = Except.error pollTimeoutMsg := by
  induction fuel generalizing attempt with
  | zero => simp [pollTaskStatusLoop]
  | succ f ih =>
    obtain ⟨ts, hts, hnt⟩ := h 0 (Nat.succ_pos f)
    rw [Nat.add_zero] at hts
    simp only [pollTaskStatusLoop, hts]
    rw [if_neg hnt]
    refine ih (attempt + 1) (fun i hi => ?_)
    have h2 := h (i + 1) (Nat.succ_lt_succ hi)
    have heq : attempt + (i + 1) = attempt + 1 + i := by omega
    rwa [heq] at h2

theorem pollTaskStatusLoop_error_at (resp : Nat → PollResponse) (attempt fuel k : Nat)
    (e : JsStr) (hk : k < fuel)
    (hpre : ∀ i, i < k → ∃ ts, resp (attempt + i) = PollResponse.success ts ∧
      ¬(ts.status = TaskState.completed ∨ ts.status = TaskState.failed))
    (herr : resp (attempt + k) = PollResponse.failure e) :
    pollTaskStatusLoop resp attempt fuel = (Except.error e, k + 1) := by
  induction k generalizing attempt fuel with
  | zero =>
    obtain ⟨f, rfl⟩ := Nat.exists_eq_succ_of_ne_zero (Nat.pos_iff_ne_zero.mp hk)
    rw [Nat.add_zero] at herr
    simp [pollTaskStatusLoop, herr]
  | succ m ih =>
    obtain ⟨f, rfl⟩ := Nat.exists_eq_succ_of_ne_zero (Nat.pos_iff_ne_zero.mp
      (Nat.lt_of_le_of_lt (Nat.zero_le _) hk))
    obtain ⟨ts, hts, hnt⟩ := hpre 0 (Nat.succ_pos m)
    rw [Nat.add_zero] at hts
    have hrec := ih (attempt + 1) f (by omega)
      (fun i hi => by
        have h2 := hpre (i + 1) (Nat.succ_lt_succ hi)
        have heq : attempt + (i + 1) = attempt + 1 + i := by omega
        rwa [heq] at h2)
      (by
        have heq : attempt + (m + 1) = attempt + 1 + m := by omega
        rwa [heq] at herr)
    simp only [pollTaskStatusLoop, hts]
    rw [if_neg hnt]
    simp [hrec]

/-- C9. `pollTaskStatus` issues at most `maxAttempts` status requests; a
normally-returned status is always terminal (`completed` or `failed`); if
every one of the first `maxAttempts` responses is a non-terminal success,
the timeout error is thrown; and a response carrying an error is thrown
immediately, at whatever attempt the loop reaches it: if the first `k`
responses are non-terminal successes and response `k` carries an error,
that error is thrown after exactly `k + 1` requests. -/
theorem pollTaskStatus_spec (resp : Nat → PollResponse) (maxAttempts : Nat) :
    (pollTaskStatus resp maxAttempts).2 ≤ maxAttempts ∧
    (∀ ts, (pollTaskStatus resp maxAttempts).1 = Except.ok ts →
      ts.status = TaskState.completed ∨ ts.status = TaskState.failed) ∧
    ((∀ i, i < maxAttempts → ∃ ts, resp i = PollResponse.success ts ∧
        ¬(ts.status = TaskState.completed ∨ ts.status = TaskState.failed)) →
      (pollTaskStatus resp maxAttempts).1 = Except.error pollTimeoutMsg) ∧
    (∀ k e, k < maxAttempts →
      (∀ i, i < k → ∃ ts, resp i = PollResponse.success ts ∧
        ¬(ts.status = TaskState.completed ∨ ts.status = TaskState.failed)) →
      resp k = PollResponse.failure e →
      pollTaskStatus resp maxAttempts = (Except.error e, k + 1)) := by
  refine ⟨pollTaskStatusLoop_count_le resp 0 maxAttempts,
    fun ts h => pollTaskStatusLoop_ok_terminal resp 0 maxAttempts ts h,
    fun h => pollTaskStatusLoop_all_nonterminal resp 0 maxAttempts
      (fun i hi => by simpa using h i hi),
    fun k e hk hpre herr => pollTaskStatusLoop_error_at resp 0 maxAttempts k e hk
      (fun i hi => by simpa using hpre i hi) (by simpa using herr)⟩

/-- C9 (witness): the specification evaluated on concrete streams.  On a
stream whose responses are all non-terminal (`pending`), with
`maxAttempts = 2`, at most two requests are issued and the timeout error is
thrown; on a stream whose second response (attempt 1, after one `pending`)
carries the error `"boom"`, with `maxAttempts = 3`, that error is thrown
immediately, after exactly two requests. -/
theorem pollTaskStatus_spec_witness :
    (pollTaskStatus (fun _ => PollResponse.success ⟨jstr "t1", TaskState.pending⟩) 2).2 ≤ 2 ∧
    (pollTaskStatus (fun _ => PollResponse.success ⟨jstr "t1", TaskState.pending⟩) 2).1
      = Except.error pollTimeoutMsg ∧
    pollTaskStatus
        (fun i => if i = 0 then PollResponse.success ⟨jstr "t1", TaskState.pending⟩
          else PollResponse.failure (jstr "boom")) 3
      = (Except.error (jstr "boom"), 2) :=
  ⟨(pollTaskStatus_spec (fun _ => PollResponse.success ⟨jstr "t1", TaskState.pending⟩) 2).1,
   (pollTaskStatus_spec (fun _ => PollResponse.success ⟨jstr "t1", TaskState.pending⟩) 2).2.2.1
     (fun i _ => ⟨⟨jstr "t1", TaskState.pending⟩, rfl, by decide⟩),
   (pollTaskStatus_spec
       (fun i => if i = 0 then PollResponse.success ⟨jstr "t1", TaskState.pending⟩
         else PollResponse.failure (jstr "boom")) 3).2.2.2
     1 (jstr "boom") (by decide)
     (fun i hi => by
       have hi0 : i = 0 := by omega
       subst hi0
       exact ⟨⟨jstr "t1", TaskState.pending⟩, rfl, by decide⟩)
     rfl⟩

/-
## Chat message lists
(`lume-agent/components/ChatInterface.tsx` and
`lume_frontend/src/components/ChatInterface.tsx`.)
-/

/-- The type `SenderRole` of `lume-agent`'s `ChatInterface`. -/
inductive SenderRole where
  | user
  | assistant
deriving DecidableEq

/-- The type `MessageStatus` of `lume-agent`'s `ChatInterface`. -/
inductive MessageStatus where
  | sending
  | sent
  | delivered
  | read
  | error
deriving DecidableEq

/-- The `Message` interface of `lume-agent`'s `ChatInterface` (string id). -/
structure AgentMessage where
  id : JsStr
  role : SenderRole
  text : JsStr
  timestamp : JsStr
  status : Option MessageStatus
  suggestions : Option (List JsStr)
  reactions : Option (List JsStr)
deriving DecidableEq

/-- A `Partial<Message>` patch.  Each field is `some v` when the patch
carries that key (the source only ever patches concrete values). -/
structure MessagePatch where
  id : Option JsStr
  role : Option SenderRole
  text : Option JsStr
  timestamp : Option JsStr
  status : Option (Option MessageStatus)
  suggestions : Option (Option (List JsStr))
  reactions : Option (Option (List JsStr))
deriving DecidableEq

/-- The spread `{ ...m, ...patch }`. -/
def applyPatch (m : AgentMessage) (p : MessagePatch) : AgentMessage :=
  { id := p.id.getD m.id,
    role := p.role.getD m.role,
    text := p.text.getD m.text,
    timestamp := p.timestamp.getD m.timestamp,
    status := p.status.getD m.status,
    suggestions := p.suggestions.getD m.suggestions,
    reactions := p.reactions.getD m.reactions }

/-- Helper `addMessage`: `setMessages(prev => [...prev, msg])`. -/
def addMessage (msgs : List AgentMessage) (m : AgentMessage) : List AgentMessage :=
  msgs ++ [m]

/-- Helper `updateMessage`: `prev.map(m => (m.id === id ? { ...m, ...patch } : m))`. -/
def updateMessage (msgs : List AgentMessage) (mid : JsStr) (p : MessagePatch) :
    List AgentMessage :=
  msgs.map (fun m => if m.id = mid then applyPatch m p else m)

/-- Helper `removeMessage`: `prev.filter(m => m.id !== id)` — wired to the delete
button of every message bubble. -/
def removeMessage (msgs : List AgentMessage) (mid : JsStr) : List AgentMessage :=
  msgs.filter (fun m => decide (m.id ≠ mid))

/-- Role of a `lume_frontend` message (`user`, `assistant` or `system`). -/
inductive FrontRole where
  | user
  | assistant
  | system
deriving DecidableEq

/-- The `Message` shape of `lume_frontend` (numeric id). -/
structure FrontMessage where
  id : Int
  role : FrontRole
  content : JsStr
  timestamp : JsStr
deriving DecidableEq

/-- Handler `handleSendMessage`, success path without a permission request:
`prev.slice(0, -1)` drops the optimistic user message, then the
server-confirmed `user_message` and optional `assistant_message` are
appended. -/
def sendMessageSuccess (prev : List FrontMessage) (userMessage : FrontMessage)
    (assistantMessage : Option FrontMessage) : List FrontMessage :=
  match assistantMessage with
  | some am => prev.dropLast ++ [userMessage, am]
  | none => prev.dropLast ++ [userMessage]

/-- Handler `handleSendMessage`, permission-required path: the optimistic message
is replaced by the confirmed `user_message` plus the permissions notice. -/
def sendMessagePermissions (prev : List FrontMessage) (userMessage permMessage : FrontMessage) :
    List FrontMessage :=
  prev.dropLast ++ [userMessage, permMessage]

/-- Handler `handleSendMessage`, error path: the optimistic message is removed
(`prev.slice(0, -1)`), then a system error message is appended. -/
def sendMessageFailure (prev : List FrontMessage) (errorMessage : FrontMessage) :
    List FrontMessage :=
  prev.dropLast ++ [errorMessage]

/-- C5 (counterexample). The message log is not append-only: `removeMessage`
(the delete button) removes an existing message from the list.  On the
concrete two-message list below, the first message is present before the
call and absent afterwards. -/
theorem removeMessage_deletes :
    (⟨jstr "1", SenderRole.user, jstr "hi", jstr "t0", none, none, none⟩ : AgentMessage)
      ∈ [(⟨jstr "1", SenderRole.user, jstr "hi", jstr "t0", none, none, none⟩ : AgentMessage),
         ⟨jstr "2", SenderRole.assistant, jstr "yo", jstr "t1", none, none, none⟩] ∧
    removeMessage
        [⟨jstr "1", SenderRole.user, jstr "hi", jstr "t0", none, none, none⟩,
         ⟨jstr "2", SenderRole.assistant, jstr "yo", jstr "t1", none, none, none⟩]
        (jstr "1")
      = [⟨jstr "2", SenderRole.assistant, jstr "yo", jstr "t1", none, none, none⟩] ∧
    (⟨jstr "1", SenderRole.user, jstr "hi", jstr "t0", none, none, none⟩ : AgentMessage)
      ∉ removeMessage
          [⟨jstr "1", SenderRole.user, jstr "hi", jstr "t0", none, none, none⟩,
           ⟨jstr "2", SenderRole.assistant, jstr "yo", jstr "t1", none, none, none⟩]
          (jstr "1") := by
  refine ⟨by decide, by decide, by decide⟩

/-- C5 (amended). The message-list operations either append at the end,
update message fields in place, or remove messages; none of them reorders
the survivors: `addMessage` appends; `updateMessage` preserves length (and
every id, when the patch does not carry an id); `removeMessage` keeps
exactly the messages with a different id, in their original relative order
(its result is a sublist); and the `handleSendMessage` paths replace the
last (optimistic) message by server-provided messages appended at the end,
the retained head being a prefix-sublist of the input. -/
theorem messageList_ops (msgs : List AgentMessage) (m : AgentMessage) (mid : JsStr)
    (p : MessagePatch) (prev : List FrontMessage) (u pm e : FrontMessage)
    (am : Option FrontMessage) :
    addMessage msgs m = msgs ++ [m] ∧
    (updateMessage msgs mid p).length = msgs.length ∧
    (p.id = none → (updateMessage msgs mid p).map AgentMessage.id
        = msgs.map AgentMessage.id) ∧
    List.Sublist (removeMessage msgs mid) msgs ∧
    (m ∈ removeMessage msgs mid ↔ m ∈ msgs ∧ m.id ≠ mid) ∧
    List.Sublist prev.dropLast prev ∧
    sendMessageSuccess prev u am = prev.dropLast ++ u :: am.toList ∧
    sendMessagePermissions prev u pm = prev.dropLast ++ [u, pm] ∧
    sendMessageFailure prev e = prev.dropLast ++ [e] := by
  refine ⟨rfl, ?_, ?_, ?_, ?_, List.dropLast_sublist prev, ?_, rfl, rfl⟩
  · simp [updateMessage]
  · intro hid
    simp only [updateMessage, List.map_map]
    refine List.map_congr_left (fun x _ => ?_)
    by_cases h : x.id = mid
    · simp [h, applyPatch, hid]
    · simp [h]
  · exact List.filter_sublist msgs
  · simp [removeMessage, List.mem_filter]
  · cases am <;> simp [sendMessageSuccess]

/-- C5 (witness): the id-preservation clause of the amended theorem applied
to a concrete singleton list and the empty patch. -/
theorem messageList_ops_witness :
    (MessagePatch.mk none none none none none none none).id = none ∧
    (updateMessage
        [⟨jstr "1", SenderRole.user, jstr "hi", jstr "t0", none, none, none⟩]
        (jstr "1")
        (MessagePatch.mk none none none none none none none)).map AgentMessage.id
      = [⟨jstr "1", SenderRole.user, jstr "hi", jstr "t0", none, none, none⟩].map
          AgentMessage.id :=
  ⟨rfl,
   (messageList_ops
      [⟨jstr "1", SenderRole.user, jstr "hi", jstr "t0", none, none, none⟩]
      ⟨jstr "1", SenderRole.user, jstr "hi", jstr "t0", none, none, none⟩
      (jstr "1") (MessagePatch.mk none none none none none none none)
      [] ⟨0, FrontRole.user, jstr "x", jstr "t"⟩ ⟨1, FrontRole.assistant, jstr "y", jstr "t"⟩
      ⟨2, FrontRole.system, jstr "z", jstr "t"⟩ none).2.2.1 rfl⟩

/-
## OAuth callback handling (`lume_frontend/src/app/page.tsx`, `useEffect`)
-/

/-- The URL query parameters the `useEffect` reads
(`urlParams.get` returns `string | null`). -/
structure CallbackParams where
  auth_success : Option JsStr
  error : Option JsStr
  service_perms_granted : Option JsStr
  code : Option JsStr
  state : Option JsStr
deriving DecidableEq

/-- The observable actions the `useEffect` body performs, in order. -/
inductive CallbackEffect where
  /-- the unconditional `checkAuth()` call at the top of the effect -/
  | checkAuthNow
  /-- The call `console.error('OAuth error:', error)` — developer console output -/
  | consoleError (msg : JsStr)
  /-- A call `console.log(...)` — developer console output -/
  | consoleLog (msg : JsStr)
  /-- The call `window.history.replaceState({}, document.title, '/')` -/
  | historyReplaceRoot
  /-- The call `setTimeout(() => checkAuth(), delayMs)` -/
  | scheduleCheckAuth (delayMs : Nat)
deriving DecidableEq

/-- The component state the `useEffect` body can set synchronously
(`showPermissionModal`; `user`/`loading` change only through the
asynchronous `checkAuth`, which appears as an effect above). -/
structure HomeState where
  showPermissionModal : Bool
deriving DecidableEq

/-- The `useEffect` body of `Home`, as a function from the URL parameters
and current state to the new state and the ordered list of performed
actions.  String truthiness (`if (error)`, `code && state`) follows
JavaScript; `authSuccess === 'true'` and `servicePermsGranted === 'true'`
are strict comparisons. -/
def handleOAuthCallback (p : CallbackParams) (st : HomeState) :
    HomeState × List CallbackEffect :=
  let e1 := if jsTruthy p.error then [CallbackEffect.consoleError (jstr "OAuth error:")] else []
  let e2 :=
    if (jsTruthy p.code && jsTruthy p.state) || decide (p.auth_success = some (jstr "true")) then
      [CallbackEffect.consoleLog (jstr "OAuth callback detected, clearing URL and checking auth..."),
       CallbackEffect.historyReplaceRoot,
       CallbackEffect.scheduleCheckAuth 1500]
    else []
  if p.service_perms_granted = some (jstr "true") then
    ({ showPermissionModal := false },
     CallbackEffect.checkAuthNow :: e1 ++ e2 ++
       [CallbackEffect.consoleLog (jstr "Service permissions granted"),
        CallbackEffect.historyReplaceRoot,
        CallbackEffect.scheduleCheckAuth 1500])
  else (st, CallbackEffect.checkAuthNow :: e1 ++ e2)

/-- C6 (counterexample). A callback URL carrying only an `error` parameter
produces no user-visible error output: the component state is unchanged
(whatever it was) and the only action beyond the unconditional auth check
is a `console.error`, which goes to the developer console, not the page. -/
theorem oauthError_console_only :
    handleOAuthCallback ⟨none, some (jstr "access_denied"), none, none, none⟩ ⟨true⟩
      = (⟨true⟩, [CallbackEffect.checkAuthNow,
                  CallbackEffect.consoleError (jstr "OAuth error:")]) ∧
    handleOAuthCallback ⟨none, some (jstr "access_denied"), none, none, none⟩ ⟨false⟩
      = (⟨false⟩, [CallbackEffect.checkAuthNow,
                   CallbackEffect.consoleError (jstr "OAuth error:")]) := by
  constructor
  · rfl
  · rfl

/-- C6 (amended). When the callback URL carries a (truthy) `error`
parameter, the error is only logged to the browser console
(`console.error('OAuth error:', ...)`); unless `service_perms_granted` is
`'true'`, the component state is unchanged, so the error parameter alone
never produces user-visible error output. -/
theorem oauthError_logged_not_surfaced (p : CallbackParams) (st : HomeState)
    (herr : jsTruthy p.error = true) :
    CallbackEffect.consoleError (jstr "OAuth error:") ∈ (handleOAuthCallback p st).2 ∧
    (p.service_perms_granted ≠ some (jstr "true") → (handleOAuthCallback p st).1 = st) := by
  constructor
  · simp only [handleOAuthCallback, herr]
    split <;> simp
  · intro hperm
    simp only [handleOAuthCallback, herr]
    rw [if_neg hperm]

/-- C6 (witness): the amended theorem at the concrete error-only URL. -/
theorem oauthError_logged_not_surfaced_witness :
    CallbackEffect.consoleError (jstr "OAuth error:")
      ∈ (handleOAuthCallback ⟨none, some (jstr "denied"), none, none, none⟩ ⟨true⟩).2 ∧
    (handleOAuthCallback ⟨none, some (jstr "denied"), none, none, none⟩ ⟨true⟩).1 = ⟨true⟩ :=
  ⟨(oauthError_logged_not_surfaced ⟨none, some (jstr "denied"), none, none, none⟩ ⟨true⟩
      (by decide)).1,
   (oauthError_logged_not_surfaced ⟨none, some (jstr "denied"), none, none, none⟩ ⟨true⟩
      (by decide)).2 (by decide)⟩

/-
## `TokenManager.isTokenExpired`

```
static isTokenExpired(token: string): boolean {
  try {
    const payload = JSON.parse(atob(token.split('.')[1]));
    const currentTime = Math.floor(Date.now() / 1000);
    return payload.exp < currentTime;
  } catch {
    return true; // If we can't parse it, consider it expired
  }
}
```

The pipeline is embedded executably: `String.prototype.split`, `atob`
(forgiving-base64), `JSON.parse`, property access and the `<` comparison.
Model notes, each marked at its definition: JSON numbers are modelled as
integers (a JWT `exp` is integral seconds; fraction/exponent forms are
outside the model), string-to-number coercion covers decimal integer
strings, and array-to-number coercion is modelled as NaN.
-/

/-- The method `String.prototype.split` with a one-character separator (given as a
code unit): `"a.b".split('.') = ["a","b"]`, `"".split('.') = [""]`. -/
def splitOnCode (sep : Nat) : JsStr → List JsStr
  | [] => [[]]
  | c :: rest =>
    match splitOnCode sep rest with
    | [] => [[]]
    | h :: t => if c = sep then [] :: h :: t else (c :: h) :: t

/-- The expression `token.split('.')[1]`, as the string `atob` receives.  When the index
is out of range the JavaScript value is `undefined`, which `atob` coerces
to the eight-character string `"undefined"` (whose length is ≡ 1 mod 4, so
decoding then fails). -/
def jwtPayloadPart (token : JsStr) : JsStr :=
  match (splitOnCode 46 token)[1]? with
  | some part => part
  | none => jstr "undefined"

/-- The base64 alphabet value of one code unit. -/
def base64Val (c : Nat) : Option Nat :=
  if 65 ≤ c ∧ c ≤ 90 then some (c - 65)
  else if 97 ≤ c ∧ c ≤ 122 then some (c - 71)
  else if 48 ≤ c ∧ c ≤ 57 then some (c + 4)
  else if c = 43 then some 62
  else if c = 47 then some 63
  else none

/-- ASCII whitespace, which forgiving-base64 removes before decoding. -/
def isAsciiWhitespaceCode (c : Nat) : Bool :=
  c = 9 || c = 10 || c = 12 || c = 13 || c = 32

/-- Forgiving-base64 padding removal: when the length is a multiple of
four, up to two trailing `=` are stripped. -/
def stripBase64Padding (t : JsStr) : JsStr :=
  if t.length % 4 = 0 then
    match t.reverse with
    | 61 :: 61 :: r => r.reverse
    | 61 :: r => r.reverse
    | _ => t
  else t

/-- Decodes base64 quadruples to byte triples; a trailing group of two or
three characters contributes one or two bytes.  Any non-alphabet character
(including a leftover `=`) fails. -/
def decodeBase64Groups : JsStr → Option (List Nat)
  | [] => some []
  | [c1, c2] => do
    let a ← base64Val c1
    let b ← base64Val c2
    some [a * 4 + b / 16]
  | [c1, c2, c3] => do
    let a ← base64Val c1
    let b ← base64Val c2
    let c ← base64Val c3
    some [a * 4 + b / 16, (b % 16) * 16 + c / 4]
  | c1 :: c2 :: c3 :: c4 :: rest => do
    let a ← base64Val c1
    let b ← base64Val c2
    let c ← base64Val c3
    let d ← base64Val c4
    let tail ← decodeBase64Groups rest
    some ((a * 4 + b / 16) :: ((b % 16) * 16 + c / 4) :: ((c % 4) * 64 + d) :: tail)
  | [_] => none

/-- The function `window.atob`, per the forgiving-base64 algorithm: remove ASCII
whitespace, strip padding, reject a length ≡ 1 mod 4, decode; `none`
models the thrown `InvalidCharacterError`. -/
def atobJs (s : JsStr) : Option JsStr :=
  let t := stripBase64Padding (s.filter (fun c => !isAsciiWhitespaceCode c))
  if t.length % 4 = 1 then none
  else decodeBase64Groups t

/-- A parsed JSON value.  Numbers are modelled as integers (see the section
note). -/
inductive JsonValue where
  | null
  | bool (b : Bool)
  | num (n : Int)
  | str (s : JsStr)
  | arr (items : List JsonValue)
  | obj (fields : List (JsStr × JsonValue))

/-- JSON insignificant whitespace. -/
def skipJsonWs (s : JsStr) : JsStr :=
  s.dropWhile (fun c => c = 32 || c = 9 || c = 10 || c = 13)

/-- The value of one hexadecimal digit. -/
def hexVal (c : Nat) : Option Nat :=
  if 48 ≤ c ∧ c ≤ 57 then some (c - 48)
  else if 65 ≤ c ∧ c ≤ 70 then some (c - 55)
  else if 97 ≤ c ∧ c ≤ 102 then some (c - 87)
  else none

/-- The code unit of a single-character JSON escape. -/
def jsonEscapeCode (e : Nat) : Option Nat :=
  if e = 34 ∨ e = 92 ∨ e = 47 then some e
  else if e = 98 then some 8
  else if e = 102 then some 12
  else if e = 110 then some 10
  else if e = 114 then some 13
  else if e = 116 then some 9
  else none

/-- Parses the rest of a JSON string (after the opening quote), returning
its decoded code units and the remaining input. -/
def parseJsonStringRest : Nat → JsStr → Option (JsStr × JsStr)
  | 0, _ => none
  | _, [] => none
  | fuel + 1, c :: rest =>
    if c = 34 then some ([], rest)
    else if c = 92 then
      match rest with
      | [] => none
      | e :: r =>
        if e = 117 then
          match r with
          | h1 :: h2 :: h3 :: h4 :: r2 => do
            let v1 ← hexVal h1
            let v2 ← hexVal h2
            let v3 ← hexVal h3
            let v4 ← hexVal h4
            let (cs, r3) ← parseJsonStringRest fuel r2
            some ((v1 * 4096 + v2 * 256 + v3 * 16 + v4) :: cs, r3)
          | _ => none
        else do
          let ec ← jsonEscapeCode e
          let (cs, r2) ← parseJsonStringRest fuel r
          some (ec :: cs, r2)
    else if c < 32 then none
    else do
      let (cs, r2) ← parseJsonStringRest fuel rest
      some (c :: cs, r2)

/-- The value of a digit string. -/
def digitsToNat (ds : List Nat) : Nat :=
  ds.foldl (fun acc c => acc * 10 + (c - 48)) 0

/-- Parses a JSON number.  Integer forms only: a fraction or exponent makes
the parse fail in the model (a JWT `exp` is an integer; see the section
note). -/
def parseJsonNumber (s : JsStr) : Option (JsonValue × JsStr) :=
  let signed := match s with
    | 45 :: r => (true, r)
    | _ => (false, s)
  let split := signed.2.span (fun c => decide (48 ≤ c) && decide (c ≤ 57))
  if split.1.isEmpty then none
  else if 1 < split.1.length ∧ split.1.headD 0 = 48 then none
  else
    match split.2 with
    | 46 :: _ => none
    | 101 :: _ => none
    | 69 :: _ => none
    | _ =>
      let n : Int := digitsToNat split.1
      some (.num (if signed.1 then -n else n), split.2)

mutual

/-- Parses one JSON value (a fuel-indexed recursive-descent parser;
`jsonParse` supplies ample fuel). -/
def parseJsonValue : Nat → JsStr → Option (JsonValue × JsStr)
  | 0, _ => none
  | fuel + 1, s =>
    match skipJsonWs s with
    | [] => none
    | c :: rest =>
      if c = 110 then
        match rest with
        | 117 :: 108 :: 108 :: r => some (.null, r)
        | _ => none
      else if c = 116 then
        match rest with
        | 114 :: 117 :: 101 :: r => some (.bool true, r)
        | _ => none
      else if c = 102 then
        match rest with
        | 97 :: 108 :: 115 :: 101 :: r => some (.bool false, r)
        | _ => none
      else if c = 34 then do
        let p ← parseJsonStringRest (rest.length + 1) rest
        some (.str p.1, p.2)
      else if c = 91 then
        match skipJsonWs rest with
        | 93 :: r => some (.arr [], r)
        | _ => do
          let p ← parseJsonArrayItems fuel rest
          some (.arr p.1, p.2)
      else if c = 123 then
        match skipJsonWs rest with
        | 125 :: r => some (.obj [], r)
        | _ => do
          let p ← parseJsonObjectItems fuel rest
          some (.obj p.1, p.2)
      else parseJsonNumber (c :: rest)

/-- Parses the non-empty element list of a JSON array, up to and including
the closing bracket. -/
def parseJsonArrayItems : Nat → JsStr → Option (List JsonValue × JsStr)
  | 0, _ => none
  | fuel + 1, s => do
    let p ← parseJsonValue fuel s
    match skipJsonWs p.2 with
    | 44 :: r2 => do
      let q ← parseJsonArrayItems fuel r2
      some (p.1 :: q.1, q.2)
    | 93 :: r2 => some ([p.1], r2)
    | _ => none

/-- Parses the non-empty member list of a JSON object, up to and including
the closing brace. -/
def parseJsonObjectItems : Nat → JsStr → Option (List (JsStr × JsonValue) × JsStr)
  | 0, _ => none
  | fuel + 1, s =>
    match skipJsonWs s with
    | 34 :: r => do
      let k ← parseJsonStringRest (r.length + 1) r
      match skipJsonWs k.2 with
      | 58 :: r2 => do
        let v ← parseJsonValue fuel r2
        match skipJsonWs v.2 with
        | 44 :: r4 => do
          let fs ← parseJsonObjectItems fuel r4
          some ((k.1, v.1) :: fs.1, fs.2)
        | 125 :: r4 => some ([(k.1, v.1)], r4)
        | _ => none
      | _ => none
    | _ => none

end

/-- The function `JSON.parse`: one value, then only whitespace may remain; `none`
models the thrown `SyntaxError`. -/
def jsonParse (s : JsStr) : Option JsonValue :=
  match parseJsonValue (2 * s.length + 2) s with
  | some (v, rest) => if (skipJsonWs rest).isEmpty then some v else none
  | none => none

/-- JavaScript property access `payload.exp` on a parsed JSON value:
defined (`some`) only on objects; later duplicate keys override earlier
ones, hence the reverse-find.  Access on a primitive or array yields
`undefined` (`none`); access on `null` throws and is handled separately in
`isTokenExpired`. -/
def jsGetField (v : JsonValue) (key : JsStr) : Option JsonValue :=
  match v with
  | .obj fields => (fields.reverse.find? (fun pr => decide (pr.1 = key))).map Prod.snd
  | _ => none

/-- JavaScript `Number(string)` restricted to trimmed decimal integer
strings; the empty (or all-whitespace) string coerces to 0, anything else
in this model is NaN (`none`). -/
def strToNumber (s : JsStr) : Option Int :=
  let t := ((s.dropWhile isAsciiWhitespaceCode).reverse.dropWhile isAsciiWhitespaceCode).reverse
  if t.isEmpty then some 0
  else
    let signed := match t with
      | 45 :: r => (true, r)
      | 43 :: r => (false, r)
      | _ => (false, t)
    if signed.2.isEmpty then none
    else if signed.2.all (fun c => decide (48 ≤ c) && decide (c ≤ 57)) then
      some (if signed.1 then -(digitsToNat signed.2 : Int) else (digitsToNat signed.2 : Int))
    else none

/-- JavaScript numeric coercion of a JSON value (`none` is NaN): `null` is
0, booleans are 0/1, strings via `strToNumber`; arrays coerce through
`toString` in JavaScript and are modelled as NaN (a JWT `exp` is never an
array), objects are NaN. -/
def jsToNumber : JsonValue → Option Int
  | .null => some 0
  | .bool b => some (if b then 1 else 0)
  | .num n => some n
  | .str s => strToNumber s
  | .arr _ => none
  | .obj _ => none

/-- The comparison `payload.exp < currentTime`: `undefined` (`none`) or a
NaN coercion makes `<` false. -/
def jsLtNum (x : Option JsonValue) (rhs : Int) : Bool :=
  match x with
  | none => false
  | some v =>
    match jsToNumber v with
    | none => false
    | some n => decide (n < rhs)

/-- The method `TokenManager.isTokenExpired`.  `nowMs` is `Date.now()`; any exception
in the pipeline (base64 failure, JSON failure, or property access on a
`null` payload) lands in the `catch` and yields `true`. -/
def isTokenExpired (token : JsStr) (nowMs : Nat) : Bool :=
  match atobJs (jwtPayloadPart token) with
  | none => true
  | some decoded =>
    match jsonParse decoded with
    | none => true
    | some payload =>
      match payload with
      | .null => true
      | _ => jsLtNum (jsGetField payload (jstr "exp")) ((nowMs / 1000 : Nat) : Int)

/-- C10 (counterexample). `isTokenExpired` does not fail closed on every
unparseable token: the token `"h.e30=.s"` has the valid-base64 payload
`"e30="`, which decodes to `"\x7b\x7d"` — the empty JSON object, with no
`exp`.  `payload.exp` is `undefined`, `undefined < currentTime` is false,
and the function reports the token as *not* expired. -/
theorem isTokenExpired_missing_exp :
    isTokenExpired (jstr "h.e30=.s") 1700000000000 = false ∧
    (atobJs (jwtPayloadPart (jstr "h.e30=.s"))).bind jsonParse
      = some (JsonValue.obj []) := by
  constructor
  · rfl
  · rfl

/-- C10 (amended). `isTokenExpired` is total; a token whose payload part
fails base64 decoding or JSON parsing — and a `null` payload, whose
property access throws — yields `true` (fail closed); a payload carrying a
numeric `exp` yields `true` exactly when `exp < floor(Date.now() / 1000)`;
but an *object* payload without an `exp` field yields `false` (the
`undefined < currentTime` comparison is false), so for those tokens the
check fails open, not closed. -/
theorem isTokenExpired_spec (token : JsStr) (nowMs : Nat) :
    (atobJs (jwtPayloadPart token) = none → isTokenExpired token nowMs = true) ∧
    (∀ decoded, atobJs (jwtPayloadPart token) = some decoded →
      jsonParse decoded = none → isTokenExpired token nowMs = true) ∧
    (∀ decoded, atobJs (jwtPayloadPart token) = some decoded →
      jsonParse decoded = some JsonValue.null → isTokenExpired token nowMs = true) ∧
    (∀ decoded payload e, atobJs (jwtPayloadPart token) = some decoded →
      jsonParse decoded = some payload →
      jsGetField payload (jstr "exp") = some (JsonValue.num e) →
      (isTokenExpired token nowMs = true ↔ e < ((nowMs / 1000 : Nat) : Int))) ∧
    (∀ decoded fields, atobJs (jwtPayloadPart token) = some decoded →
      jsonParse decoded = some (JsonValue.obj fields) →
      jsGetField (JsonValue.obj fields) (jstr "exp") = none →
      isTokenExpired token nowMs = false) := by
  refine ⟨fun h1 => ?_, fun decoded h1 h2 => ?_, fun decoded h1 h2 => ?_,
    fun decoded payload e h1 h2 h3 => ?_, fun decoded fields h1 h2 h3 => ?_⟩
  · simp [isTokenExpired, h1]
  · simp [isTokenExpired, h1, h2]
  · simp [isTokenExpired, h1, h2]
  · cases payload with
    | null => simp [jsGetField] at h3
    | bool b => simp [jsGetField] at h3
    | num n => simp [jsGetField] at h3
    | str s => simp [jsGetField] at h3
    | arr items => simp [jsGetField] at h3
    | obj fields =>
      simp [isTokenExpired, h1, h2, h3, jsLtNum, jsToNumber]
  · simp [isTokenExpired, h1, h2, h3, jsLtNum]

/-- C10 (witness): a well-formed token whose payload is
`\x7b"exp":100\x7d`; at `Date.now() = 200000` (current Unix time 200) the
token is expired, matching `100 < 200`. -/
theorem isTokenExpired_spec_witness :
    isTokenExpired (jstr "a.eyJleHAiOjEwMH0=.b") 200000 = true :=
  ((isTokenExpired_spec (jstr "a.eyJleHAiOjEwMH0=.b") 200000).2.2.2.1
      (jstr "\x7b\x22exp\x22:100\x7d")
      (JsonValue.obj [(jstr "exp", JsonValue.num 100)]) 100
      rfl rfl rfl).mpr (by decide)

end Lume
